import Mathlib

/-!
Verification of `.github/utils/parse_version.py`: a shallow embedding of the
version-string parser and its entry point, with theorems checking the
natural-language specification against the embedded code.

Strings are modelled by Lean `String` (a wrapper around `List Char`), and the
Python string operations used by the script (`lstrip("v")`, `split(".")`,
`split("-")[0]`, substring containment `in`, f-string concatenation,
`str(bool).lower()`) are each given a direct executable translation.
-/

namespace ParseVersion

/-- Python `s.lstrip("v")`: drop every leading character equal to `'v'`. -/
def lstripV (s : String) : String :=
  ⟨s.data.dropWhile (fun c => c = 'v')⟩

/-- Auxiliary worker for Python-style `str.split` on a single-character
separator: `acc` holds the (reversed) characters of the current chunk. -/
def splitOnAux (c : Char) : List Char → List Char → List (List Char)
  | [], acc => [acc.reverse]
  | x :: xs, acc =>
      if x = c then acc.reverse :: splitOnAux c xs []
      else splitOnAux c xs (x :: acc)

/-- Python `s.split(sep)` for a one-character separator `c`: empty chunks are
kept, and the empty string splits to `[""]`. -/
def pySplit (c : Char) (s : String) : List String :=
  (splitOnAux c s.data []).map (fun l => ⟨l⟩)

/-- Python substring containment `needle in hay` on character lists. -/
def subStr (needle : List Char) : List Char → Bool
  | [] => needle.isEmpty
  | c :: t => needle.isPrefixOf (c :: t) || subStr needle t

/-- Python `str(b).lower()` for a boolean `b`. -/
def pyBoolStr (b : Bool) : String :=
  if b then "true" else "false"

/-- The dictionary returned by `parse_version`, with its five keys as fields
in insertion order; the two boolean-valued entries are stored as the strings
produced by `str(...).lower()`, exactly as in the script. -/
structure ParsedVersion where
  version : String
  major_minor : String
  release_branch : String
  is_minor : String
  is_first_rc : String
deriving Repr, DecidableEq

/-- The script's `parse_version`: strip leading `v`s, split on `.`, require
exactly three parts (else `ValueError`), truncate the patch at its first `-`,
and build the output record.  `raise ValueError(...)` is modelled as
`Except.error` carrying the message. -/
def parse_version (version_input : String) : Except String ParsedVersion :=
  let version := lstripV version_input
  let parts := pySplit '.' version
  match parts with
  | [major, minor, patch0] =>
      let patch := (pySplit '-' patch0).headD ""
      let is_minor : Bool := patch == "0"
      let is_first_rc : Bool := is_minor && subStr "rc1".data version.data
      Except.ok
        { version := version
          major_minor := major ++ "." ++ minor
          release_branch := "v" ++ major ++ "." ++ minor ++ ".x"
          is_minor := pyBoolStr is_minor
          is_first_rc := pyBoolStr is_first_rc }
  | _ =>
      Except.error ("Invalid version format: " ++ version_input ++
        ". Expected MAJOR.MINOR.PATCH")

/-- The `main` entry point's observable output on one positional argument:
one `key=value` line per dictionary entry, in insertion order; an uncaught
`ValueError` propagates as `Except.error`. -/
def main_lines (arg : String) : Except String (List String) :=
  match parse_version arg with
  | Except.ok p =>
      Except.ok
        ["version=" ++ p.version,
         "major_minor=" ++ p.major_minor,
         "release_branch=" ++ p.release_branch,
         "is_minor=" ++ p.is_minor,
         "is_first_rc=" ++ p.is_first_rc]
  | Except.error e => Except.error e

/-- Whether an `Except` value is a success (the Python call returned instead
of raising). -/
def exceptOk {ε α : Type} : Except ε α → Bool
  | Except.ok _ => true
  | Except.error _ => false

/-! ### Helper lemmas -/

/-- `splitOnAux` never returns the empty list. -/
theorem splitOnAux_ne_nil (c : Char) (l : List Char) :
    ∀ acc, splitOnAux c l acc ≠ [] := by
  induction l with
  | nil => intro acc; simp [splitOnAux]
  | cons x xs ih =>
      intro acc
      by_cases hx : x = c
      · simp [splitOnAux, hx]
      · simpa [splitOnAux, hx] using ih (x :: acc)

/-- Python `split` never yields an empty list of chunks, so indexing `[0]`
into a split result is always defined. -/
theorem pySplit_ne_nil (c : Char) (s : String) : pySplit c s ≠ [] := by
  unfold pySplit
  simpa using splitOnAux_ne_nil c s.data []

/-- `str(b).lower()` equals `"true"` exactly when the boolean is true. -/
theorem pyBoolStr_eq_true_iff (b : Bool) : pyBoolStr b = "true" ↔ b = true := by
  cases b <;> simp [pyBoolStr]

/-- `str(b).lower()` is always one of the two lowercase tokens. -/
theorem pyBoolStr_cases (b : Bool) : pyBoolStr b = "true" ∨ pyBoolStr b = "false" := by
  cases b <;> simp [pyBoolStr]

/-- When the dot-split of the stripped input has exactly three parts,
`parse_version` returns the record built from them. -/
theorem parse_version_of_split (s a b c : String)
    (h : pySplit '.' (lstripV s) = [a, b, c]) :
    parse_version s = Except.ok
      { version := lstripV s
        major_minor := a ++ "." ++ b
        release_branch := "v" ++ a ++ "." ++ b ++ ".x"
        is_minor := pyBoolStr ((pySplit '-' c).headD "" == "0")
        is_first_rc := pyBoolStr (((pySplit '-' c).headD "" == "0") &&
          subStr "rc1".data (lstripV s).data) } := by
  simp only [parse_version, h]

/-- When the dot-split of the stripped input does not have exactly three
parts, `parse_version` fails with the format error. -/
theorem parse_version_of_not3 (s : String)
    (h : (pySplit '.' (lstripV s)).length ≠ 3) :
    parse_version s = Except.error ("Invalid version format: " ++ s ++
      ". Expected MAJOR.MINOR.PATCH") := by
  simp only [parse_version]
  rcases hp : pySplit '.' (lstripV s) with _ | ⟨a, _ | ⟨b, _ | ⟨c, _ | ⟨d, l⟩⟩⟩⟩ <;>
    first
      | rfl
      | (exact absurd (by rw [hp]; rfl) h)

/-- Every successful result of `parse_version` arises from a three-way
dot-split, and its fields are determined by the three parts. -/
theorem parse_version_ok_elim (s : String) (p : ParsedVersion)
    (hp : parse_version s = Except.ok p) :
    ∃ a b c, pySplit '.' (lstripV s) = [a, b, c] ∧
      p = { version := lstripV s
            major_minor := a ++ "." ++ b
            release_branch := "v" ++ a ++ "." ++ b ++ ".x"
            is_minor := pyBoolStr ((pySplit '-' c).headD "" == "0")
            is_first_rc := pyBoolStr (((pySplit '-' c).headD "" == "0") &&
              subStr "rc1".data (lstripV s).data) } := by
  rcases hsp : pySplit '.' (lstripV s) with _ | ⟨a, _ | ⟨b, _ | ⟨c, _ | ⟨d, l⟩⟩⟩⟩
  case cons.cons.cons.nil =>
    refine ⟨a, b, c, rfl, ?_⟩
    have := parse_version_of_split s a b c hsp
    rw [hp] at this
    exact (Except.ok.injEq _ _).mp this
  all_goals
    exact absurd (hp.symm.trans (parse_version_of_not3 s (by rw [hsp]; simp)))
      (by simp)

/-- The head of `dropWhile q l`, when it exists, fails the predicate. -/
theorem head_dropWhile_false {α : Type} (q : α → Bool) (l : List α) :
    ∀ x, (l.dropWhile q).head? = some x → q x = false := by
  induction l with
  | nil => intro x h; simp [List.dropWhile] at h
  | cons y ys ih =>
      intro x h
      rw [List.dropWhile_cons] at h
      by_cases hy : q y = true
      · rw [if_pos hy] at h; exact ih x h
      · rw [if_neg hy] at h
        simp only [List.head?_cons, Option.some.injEq] at h
        subst h
        simpa using hy

/-- `dropWhile` is idempotent. -/
theorem dropWhile_idem {α : Type} (q : α → Bool) (l : List α) :
    (l.dropWhile q).dropWhile q = l.dropWhile q := by
  induction l with
  | nil => rfl
  | cons y ys ih =>
      rw [List.dropWhile_cons]
      by_cases hy : q y = true
      · rw [if_pos hy]; exact ih
      · rw [if_neg hy, List.dropWhile_cons, if_neg hy]

/-- The prefix removed by `lstripV` is a run of `'v'` characters. -/
theorem lstripV_decomp (s : String) :
    ∃ n, s.data = List.replicate n 'v' ++ (lstripV s).data := by
  refine ⟨(s.data.takeWhile (fun c => c = 'v')).length, ?_⟩
  have hrep : s.data.takeWhile (fun c => c = 'v') =
      List.replicate (s.data.takeWhile (fun c => c = 'v')).length 'v' := by
    apply List.eq_replicate_of_mem
    intro b hb
    have h2 := List.mem_takeWhile_imp hb
    simpa using h2
  calc s.data = s.data.takeWhile (fun c => c = 'v') ++
        s.data.dropWhile (fun c => c = 'v') :=
        (List.takeWhile_append_dropWhile _ _).symm
    _ = List.replicate (s.data.takeWhile (fun c => c = 'v')).length 'v' ++
        (lstripV s).data := by rw [← hrep]; rfl

/-- The result of `lstripV` never starts with `'v'`. -/
theorem lstripV_head_ne_v (s : String) :
    ∀ c, (lstripV s).data.head? = some c → c ≠ 'v' := by
  intro c hc
  have := head_dropWhile_false (fun c => c = 'v') s.data c hc
  simpa using this

/-! ### Claim theorems -/

/-- C1: `parse_version` fails with the format error exactly when the
leading-`v`-stripped input does not split on `.` into three components, and
succeeds with a record whenever the stripped input has exactly three
dot-separated components. -/
theorem spec_C1_format_error_iff (s : String) :
    (parse_version s = Except.error ("Invalid version format: " ++ s ++
        ". Expected MAJOR.MINOR.PATCH") ↔
      (pySplit '.' (lstripV s)).length ≠ 3) ∧
    ((pySplit '.' (lstripV s)).length = 3 → exceptOk (parse_version s) = true) := by
  by_cases h3 : (pySplit '.' (lstripV s)).length = 3
  · obtain ⟨a, b, c, hsp⟩ := List.length_eq_three.mp h3
    have hok := parse_version_of_split s a b c hsp
    refine ⟨⟨fun he => ?_, fun hne => absurd h3 hne⟩, fun _ => by rw [hok]; rfl⟩
    rw [hok] at he
    exact absurd he (by simp)
  · have herr := parse_version_of_not3 s h3
    exact ⟨⟨fun _ => h3, fun _ => herr⟩, fun hc => absurd hc h3⟩

/-- C1 witness: the two-component input `"1.2"` fails with the format error,
while nothing obstructs the success direction. -/
theorem spec_C1_witness :
    (parse_version "1.2" = Except.error ("Invalid version format: " ++ "1.2" ++
        ". Expected MAJOR.MINOR.PATCH") ↔
      (pySplit '.' (lstripV "1.2")).length ≠ 3) ∧
    ((pySplit '.' (lstripV "1.2")).length = 3 → exceptOk (parse_version "1.2") = true) :=
  spec_C1_format_error_iff "1.2"

/-- C2: on every successful parse, `is_first_rc` is `"true"` iff `is_minor`
is `"true"` and the stripped input contains the substring `rc1` anywhere; in
particular `"v3.2.0-rc1-extra"` parses with `is_first_rc = "true"` even though
`rc1` is not a suffix. -/
theorem spec_C2_first_rc_substring :
    (∀ s p, parse_version s = Except.ok p →
      (p.is_first_rc = "true" ↔
        (p.is_minor = "true" ∧ subStr "rc1".data (lstripV s).data = true))) ∧
    parse_version "v3.2.0-rc1-extra" = Except.ok
      ⟨"3.2.0-rc1-extra", "3.2", "v3.2.x", "true", "true"⟩ := by
  refine ⟨fun s p hp => ?_, by rfl⟩
  obtain ⟨a, b, c, hsp, hpfields⟩ := parse_version_ok_elim s p hp
  subst hpfields
  simp [pyBoolStr_eq_true_iff]

/-- C2 witness: applying the rule to the parse of `"v1.0.0-rc1"`. -/
theorem spec_C2_witness :
    (⟨"1.0.0-rc1", "1.0", "v1.0.x", "true", "true"⟩ : ParsedVersion).is_first_rc
      = "true" :=
  (spec_C2_first_rc_substring.1 "v1.0.0-rc1"
    ⟨"1.0.0-rc1", "1.0", "v1.0.x", "true", "true"⟩ (by rfl)).mpr ⟨by rfl, by rfl⟩

/-- C3: on every successful parse, `is_minor` is `"true"` iff the third
dot-separated component truncated at its first `-` (the whole component when
no dash is present) is textually equal to `"0"`. -/
theorem spec_C3_is_minor_iff (s : String) (p : ParsedVersion) (a b c : String)
    (hp : parse_version s = Except.ok p)
    (hsp : pySplit '.' (lstripV s) = [a, b, c]) :
    p.is_minor = "true" ↔ (pySplit '-' c).headD "" = "0" := by
  have hok := parse_version_of_split s a b c hsp
  rw [hp] at hok
  have hfields := (Except.ok.injEq _ _).mp hok
  subst hfields
  simp [pyBoolStr_eq_true_iff]

/-- C3 witness: the parse of `"v2.99.0-rc1"`, whose patch component is
`"0-rc1"`, is marked as a minor release. -/
theorem spec_C3_witness :
    (⟨"2.99.0-rc1", "2.99", "v2.99.x", "true", "true"⟩ : ParsedVersion).is_minor
      = "true" :=
  (spec_C3_is_minor_iff "v2.99.0-rc1"
    ⟨"2.99.0-rc1", "2.99", "v2.99.x", "true", "true"⟩
    "2" "99" "0-rc1" (by rfl) (by rfl)).mpr (by rfl)

/-- C4: `parse_version` removes every leading `'v'` (not just one): on success
the `version` field is the stripped input, the original input is a run of
`'v'` characters followed by the `version` field, and the `version` field does
not itself start with `'v'`. -/
theorem spec_C4_strip_all_leading_v (s : String) (p : ParsedVersion)
    (hp : parse_version s = Except.ok p) :
    p.version = lstripV s ∧
    (∃ n, s.data = List.replicate n 'v' ++ p.version.data) ∧
    (∀ c, p.version.data.head? = some c → c ≠ 'v') := by
  obtain ⟨a, b, c, hsp, hpfields⟩ := parse_version_ok_elim s p hp
  subst hpfields
  exact ⟨rfl, lstripV_decomp s, lstripV_head_ne_v s⟩

/-- C4 witness: both leading `v`s of `"vv1.2.3"` are stripped. -/
theorem spec_C4_witness :
    (⟨"1.2.3", "1.2", "v1.2.x", "false", "false"⟩ : ParsedVersion).version
      = lstripV "vv1.2.3" :=
  (spec_C4_strip_all_leading_v "vv1.2.3"
    ⟨"1.2.3", "1.2", "v1.2.x", "false", "false"⟩ (by rfl)).1

/-- C5: on every successful parse, `release_branch` is the literal
concatenation `"v" ++ major ++ "." ++ minor ++ ".x"` and `major_minor` is
`major ++ "." ++ minor`, where major and minor are the raw text components of
the dot-split. -/
theorem spec_C5_branch_concat (s : String) (p : ParsedVersion) (a b c : String)
    (hp : parse_version s = Except.ok p)
    (hsp : pySplit '.' (lstripV s) = [a, b, c]) :
    p.release_branch = "v" ++ a ++ "." ++ b ++ ".x" ∧
    p.major_minor = a ++ "." ++ b := by
  have hok := parse_version_of_split s a b c hsp
  rw [hp] at hok
  have hfields := (Except.ok.injEq _ _).mp hok
  subst hfields
  exact ⟨rfl, rfl⟩

/-- C5 witness: leading zeros in `"v01.002.3"` are preserved verbatim in
`release_branch` and `major_minor`. -/
theorem spec_C5_witness :
    (⟨"01.002.3", "01.002", "v01.002.x", "false", "false"⟩ :
        ParsedVersion).release_branch = "v" ++ "01" ++ "." ++ "002" ++ ".x" ∧
    (⟨"01.002.3", "01.002", "v01.002.x", "false", "false"⟩ :
        ParsedVersion).major_minor = "01" ++ "." ++ "002" :=
  spec_C5_branch_concat "v01.002.3"
    ⟨"01.002.3", "01.002", "v01.002.x", "false", "false"⟩
    "01" "002" "3" (by rfl) (by rfl)

/-- C6: on every successful invocation the entry point emits exactly one
`key=value` line per field, in the fixed order version, major_minor,
release_branch, is_minor, is_first_rc, with the two boolean fields rendered
as the lowercase tokens `"true"` or `"false"`. -/
theorem spec_C6_output_lines (arg : String) (p : ParsedVersion)
    (hp : parse_version arg = Except.ok p) :
    main_lines arg = Except.ok
      ["version=" ++ p.version,
       "major_minor=" ++ p.major_minor,
       "release_branch=" ++ p.release_branch,
       "is_minor=" ++ p.is_minor,
       "is_first_rc=" ++ p.is_first_rc] ∧
    (p.is_minor = "true" ∨ p.is_minor = "false") ∧
    (p.is_first_rc = "true" ∨ p.is_first_rc = "false") := by
  obtain ⟨a, b, c, hsp, hpfields⟩ := parse_version_ok_elim arg p hp
  refine ⟨by simp [main_lines, hp], ?_, ?_⟩
  · rw [hpfields]; exact pyBoolStr_cases _
  · rw [hpfields]; exact pyBoolStr_cases _

/-- C6 witness: the five output lines for `"v2.99.0-rc1"`. -/
theorem spec_C6_witness :
    main_lines "v2.99.0-rc1" = Except.ok
      ["version=" ++ "2.99.0-rc1",
       "major_minor=" ++ "2.99",
       "release_branch=" ++ "v2.99.x",
       "is_minor=" ++ "true",
       "is_first_rc=" ++ "true"] :=
  (spec_C6_output_lines "v2.99.0-rc1"
    ⟨"2.99.0-rc1", "2.99", "v2.99.x", "true", "true"⟩ (by rfl)).1

/-- C7: there is no failure mode besides the format error: every input whose
stripped form splits into exactly three dot-separated parts parses
successfully, and the indexing `[0]` into the dash-split of the patch is
always defined because a Python split never returns an empty list; no
numeric validation is performed on the components. -/
theorem spec_C7_no_other_failure :
    (∀ s, (pySplit '.' (lstripV s)).length = 3 →
      exceptOk (parse_version s) = true) ∧
    (∀ c s, pySplit c s ≠ []) := by
  refine ⟨fun s h3 => ?_, fun c s => pySplit_ne_nil c s⟩
  obtain ⟨a, b, c, hsp⟩ := List.length_eq_three.mp h3
  rw [parse_version_of_split s a b c hsp]
  rfl

/-- C7 witness: the wholly non-numeric input `"x.y.z"` parses successfully,
and the dash-split of a patch component is never empty. -/
theorem spec_C7_witness :
    exceptOk (parse_version "x.y.z") = true ∧ pySplit '-' "0-rc1" ≠ [] :=
  ⟨spec_C7_no_other_failure.1 "x.y.z" (by rfl),
   spec_C7_no_other_failure.2 '-' "0-rc1"⟩

/-- C8: the leading-`v` strip is idempotent: stripping an already-stripped
string is a no-op. -/
theorem spec_C8_lstrip_idempotent (s : String) :
    lstripV (lstripV s) = lstripV s := by
  simp only [lstripV]
  exact congrArg String.mk (dropWhile_idem _ s.data)

/-- C8 witness: idempotence at the concrete input `"vv1.2.3"`. -/
theorem spec_C8_witness :
    lstripV (lstripV "vv1.2.3") = lstripV "vv1.2.3" :=
  spec_C8_lstrip_idempotent "vv1.2.3"

/-- C9: in every returned record, `is_first_rc = "true"` implies
`is_minor = "true"`: no input is marked a first release candidate without
also being marked a minor release. -/
theorem spec_C9_first_rc_implies_minor (s : String) (p : ParsedVersion)
    (hp : parse_version s = Except.ok p)
    (hrc : p.is_first_rc = "true") : p.is_minor = "true" := by
  obtain ⟨a, b, c, hsp, hpfields⟩ := parse_version_ok_elim s p hp
  subst hpfields
  simp only [pyBoolStr_eq_true_iff, Bool.and_eq_true] at hrc ⊢
  exact hrc.1

/-- C9 witness: the implication applied to the parse of `"v1.0.0-rc1"`. -/
theorem spec_C9_witness :
    (⟨"1.0.0-rc1", "1.0", "v1.0.x", "true", "true"⟩ : ParsedVersion).is_minor
      = "true" :=
  spec_C9_first_rc_implies_minor "v1.0.0-rc1"
    ⟨"1.0.0-rc1", "1.0", "v1.0.x", "true", "true"⟩ (by rfl) (by rfl)

/-- C10: in every returned record the `version` field never begins with `'v'`
(it is empty or starts with another character), while `release_branch` always
begins with `'v'`. -/
theorem spec_C10_v_prefix_invariant (s : String) (p : ParsedVersion)
    (hp : parse_version s = Except.ok p) :
    (∀ c, p.version.data.head? = some c → c ≠ 'v') ∧
    p.release_branch.data.head? = some 'v' := by
  obtain ⟨a, b, c, hsp, hpfields⟩ := parse_version_ok_elim s p hp
  subst hpfields
  exact ⟨lstripV_head_ne_v s, rfl⟩

/-- C10 witness: the invariant's branch half at the parse of `"2.5.3"`. -/
theorem spec_C10_witness :
    (⟨"2.5.3", "2.5", "v2.5.x", "false", "false"⟩ :
      ParsedVersion).release_branch.data.head? = some 'v' :=
  (spec_C10_v_prefix_invariant "2.5.3"
    ⟨"2.5.3", "2.5", "v2.5.x", "false", "false"⟩ (by rfl)).2

end ParseVersion
